import Mathlib

/-!
Verification development for the claude-monitor repository: a shallow
embedding of its event aggregation and rotation pipeline (append log
store, liveness/mode detector, read-side aggregator, collectors,
pattern detection, push-telemetry ingest, and the diagnostic scoring
engine), together with theorems settling the spec claims.

Files are modelled as the list of lines obtained by splitting the raw
file content on newlines (log lines themselves contain no newline, as
they are produced by `JSON.stringify(..) + "\n"`); a missing file is
`Option.none`.  JavaScript exceptions are modelled with `Except Unit`;
JavaScript numbers are modelled with `Rat` (exact rationals) for float
values and `Int`/`Nat` for integral values.
-/

/-- Whitespace characters trimmed by `String.prototype.trim` that occur in
this system's data (space, tab, newline, carriage return). -/
def wsChar (c : Char) : Bool := c = ' ' || c = '\t' || c = '\n' || c = '\r'

/-- Drop leading and trailing whitespace from a character list
(model of `line.trim()`). -/
def trimmedChars (l : List Char) : List Char :=
  ((l.dropWhile wsChar).reverse.dropWhile wsChar).reverse

/-- Model of the line filter `(line) => line.trim().length > 0` used by
`rotateJsonlIfNeeded` and `readJsonLines` in `dashboard/lib/state.mjs`. -/
def nonBlank (s : String) : Bool := !(trimmedChars s.data).isEmpty

/-- Model of JavaScript `array.slice(-n)` for a non-negative count `n`:
the last `n` elements — except that `slice(-0)` is `slice(0)`, the whole
array (ECMAScript converts `-0` to `+0`). -/
def sliceLast (l : List α) (n : Nat) : List α :=
  if n = 0 then l else l.drop (l.length - n)

/-- Model of JavaScript `Math.round` (round half toward positive infinity). -/
def jsRound (q : Rat) : Int := Int.floor (q + 1/2)

/-- Model of `s.slice(0, n)` / `s.substring(0, n)` on strings. -/
def takeStr (n : Nat) (s : String) : String := ⟨s.data.take n⟩

/-- Split a character list on a separator character (model of
`s.split(sep)` for a one-character separator). -/
def splitChars (sep : Char) : List Char → List (List Char)
  | [] => [[]]
  | c :: cs =>
    let rest := splitChars sep cs
    if c = sep then [] :: rest
    else
      match rest with
      | [] => [[c]]
      | r :: rs => (c :: r) :: rs

/-- Decide whether `p` is a prefix of `l` (character lists). -/
def charsHavePre : List Char → List Char → Bool
  | [], _ => true
  | _ :: _, [] => false
  | a :: ps, b :: ls => a = b && charsHavePre ps ls

/-- Model of `s.startsWith(p)` on strings. -/
def strHasPre (p s : String) : Bool := charsHavePre p.data s.data

/-- Decide whether `pat` occurs as a contiguous sublist of `l`. -/
def charsContain (pat : List Char) : List Char → Bool
  | [] => charsHavePre pat []
  | c :: cs => charsHavePre pat (c :: cs) || charsContain pat cs

/-- Model of `s.includes(pat)` on strings. -/
def jsIncludes (s pat : String) : Bool := charsContain pat.data s.data

/-- Remove the first occurrence of `pat` from a character list. -/
def removeFirstSub (pat : List Char) : List Char → List Char
  | [] => []
  | c :: cs =>
    if charsHavePre pat (c :: cs) then (c :: cs).drop pat.length
    else c :: removeFirstSub pat cs

/-- Model of JavaScript `s.replace(pat, "")` for a plain-string pattern:
only the first occurrence is removed. -/
def jsReplaceFirst (s pat : String) : String :=
  if pat.data.isEmpty then s else ⟨removeFirstSub pat.data s.data⟩

/-- JSON values as produced by `JSON.parse`.  Numbers keep their source
lexeme: none of the verified claims depends on numeric values of parsed
log records, only on parse success and record order. -/
inductive Json where
  | jnull
  | jbool (b : Bool)
  | jnum (lexeme : String)
  | jstr (s : String)
  | jarr (items : List Json)
  | jobj (members : List (String × Json))

/-- Skip JSON insignificant whitespace. -/
def skipWs : List Char → List Char
  | c :: cs => if c = ' ' || c = '\t' || c = '\n' || c = '\r' then skipWs cs else c :: cs
  | [] => []

def isDigitCh (c : Char) : Bool := '0' ≤ c && c ≤ '9'

def isHexCh (c : Char) : Bool :=
  isDigitCh c || ('a' ≤ c && c ≤ 'f') || ('A' ≤ c && c ≤ 'F')

/-- Decoded value of a single-character JSON string escape. -/
def escChar (c : Char) : Option Char :=
  if c = '"' then some '"'
  else if c = '\\' then some '\\'
  else if c = '/' then some '/'
  else if c = 'b' then some (Char.ofNat 8)
  else if c = 'f' then some (Char.ofNat 12)
  else if c = 'n' then some '\n'
  else if c = 'r' then some '\r'
  else if c = 't' then some '\t'
  else none

def hexVal (c : Char) : Nat :=
  if isDigitCh c then c.toNat - '0'.toNat
  else if 'a' ≤ c && c ≤ 'f' then c.toNat - 'a'.toNat + 10
  else c.toNat - 'A'.toNat + 10

/-- Parse the body of a JSON string literal (after the opening quote),
returning the decoded characters and the remainder after the closing
quote.  Raw control characters are rejected, as by `JSON.parse`.  The
fuel argument makes the recursion structural (hence kernel-reducible);
each step consumes at least one character, so `cs.length + 1` fuel always
suffices. -/
def parseStrBodyF : Nat → List Char → Option (List Char × List Char)
  | 0, _ => none
  | _ + 1, [] => none
  | fuel + 1, c :: rest =>
    if c = '"' then some ([], rest)
    else if c = '\\' then
      match rest with
      | [] => none
      | e :: rest2 =>
        if e = 'u' then
          match rest2 with
          | h1 :: h2 :: h3 :: h4 :: rest3 =>
            if isHexCh h1 && isHexCh h2 && isHexCh h3 && isHexCh h4 then
              match parseStrBodyF fuel rest3 with
              | some (body, rem) =>
                some (Char.ofNat (((hexVal h1 * 16 + hexVal h2) * 16 + hexVal h3) * 16 + hexVal h4) :: body, rem)
              | none => none
            else none
          | _ => none
        else
          match escChar e with
          | some d =>
            match parseStrBodyF fuel rest2 with
            | some (body, rem) => some (d :: body, rem)
            | none => none
          | none => none
    else if c.toNat < 32 then none
    else
      match parseStrBodyF fuel rest with
      | some (body, rem) => some (c :: body, rem)
      | none => none

/-- Parse a JSON string-literal body with sufficient fuel. -/
def parseStrBody (cs : List Char) : Option (List Char × List Char) :=
  parseStrBodyF (cs.length + 1) cs

/-- Parse a JSON number lexeme: `-?(0|[1-9][0-9]*)(\.[0-9]+)?([eE][+-]?[0-9]+)?`. -/
def parseNumberLex (cs : List Char) : Option (String × List Char) :=
  let (sign, cs1) :=
    match cs with
    | '-' :: t => (['-'], t)
    | _ => (([] : List Char), cs)
  let (intPart, cs2) := cs1.span isDigitCh
  if intPart.isEmpty then none
  else if intPart.length > 1 && intPart.headD '0' = '0' then none
  else
    let (fracPart, cs3) :=
      match cs2 with
      | '.' :: t =>
        let (ds, r) := t.span isDigitCh
        if ds.isEmpty then ((none : Option (List Char)), cs2) else (some ('.' :: ds), r)
      | _ => (none, cs2)
    match fracPart with
    | none =>
      match cs2 with
      | '.' :: _ => none
      | _ =>
        match parseExpPart cs2 with
        | none => none
        | some (expPart, cs4) => some (⟨sign ++ intPart ++ expPart⟩, cs4)
    | some fp =>
      match parseExpPart cs3 with
      | none => none
      | some (expPart, cs4) => some (⟨sign ++ intPart ++ fp ++ expPart⟩, cs4)
where
  /-- Parse an optional exponent part; `none` means a malformed exponent. -/
  parseExpPart (cs : List Char) : Option (List Char × List Char) :=
    match cs with
    | 'e' :: t => parseExpDigits 'e' t
    | 'E' :: t => parseExpDigits 'E' t
    | _ => some ([], cs)
  parseExpDigits (e : Char) (t : List Char) : Option (List Char × List Char) :=
    let (sgn, t2) :=
      match t with
      | '+' :: r => (['+'], r)
      | '-' :: r => (['-'], r)
      | _ => (([] : List Char), t)
    let (ds, t3) := t2.span isDigitCh
    if ds.isEmpty then none else some (e :: sgn ++ ds, t3)

/-- Parsing mode for the single fuel-structural JSON parser: a value, the
items of an array after `[`, or the members of an object after `\x7b`. -/
inductive ParseMode where
  | val
  | arrItems
  | objItems

/-- Intermediate result of the JSON parser in each mode. -/
inductive ParseOut where
  | v (j : Json)
  | items (l : List Json)
  | members (l : List (String × Json))

/-- Fuel-indexed recursive-descent parser for JSON.  The three mutually
recursive grammar productions are combined into one function with a mode
tag so the recursion is structural on the fuel and kernel-reducible; the
fuel only bounds grammar recursion, and `jsonParse` supplies enough that
it is never exhausted on a terminating parse. -/
def parseJ : Nat → ParseMode → List Char → Option (ParseOut × List Char)
  | 0, _, _ => none
  | fuel + 1, .val, cs0 =>
    let cs := skipWs cs0
    if charsHavePre "null".data cs then some (.v .jnull, cs.drop 4)
    else if charsHavePre "true".data cs then some (.v (.jbool true), cs.drop 4)
    else if charsHavePre "false".data cs then some (.v (.jbool false), cs.drop 5)
    else
      match cs with
      | [] => none
      | c :: rest =>
        if c = '"' then
          match parseStrBody rest with
          | some (body, rem) => some (.v (.jstr ⟨body⟩), rem)
          | none => none
        else if c = Char.ofNat 91 then
          let rest := skipWs rest
          match rest with
          | d :: rest2 =>
            if d = Char.ofNat 93 then some (.v (.jarr []), rest2)
            else
              match parseJ fuel .arrItems rest with
              | some (.items items, rem) => some (.v (.jarr items), rem)
              | _ => none
          | [] => none
        else if c = Char.ofNat 123 then
          let rest := skipWs rest
          match rest with
          | d :: rest2 =>
            if d = Char.ofNat 125 then some (.v (.jobj []), rest2)
            else
              match parseJ fuel .objItems rest with
              | some (.members members, rem) => some (.v (.jobj members), rem)
              | _ => none
          | [] => none
        else
          match parseNumberLex cs with
          | some (lex, rem) => some (.v (.jnum lex), rem)
          | none => none
  | fuel + 1, .arrItems, cs =>
    match parseJ fuel .val cs with
    | some (.v v, rest) =>
      let rest := skipWs rest
      match rest with
      | c :: rest2 =>
        if c = ',' then
          match parseJ fuel .arrItems rest2 with
          | some (.items items, rem) => some (.items (v :: items), rem)
          | _ => none
        else if c = Char.ofNat 93 then some (.items [v], rest2)
        else none
      | [] => none
    | _ => none
  | fuel + 1, .objItems, cs0 =>
    let cs := skipWs cs0
    match cs with
    | c :: rest =>
      if c = '"' then
        match parseStrBody rest with
        | none => none
        | some (keyBody, rest2) =>
          let rest2 := skipWs rest2
          match rest2 with
          | ':' :: rest3 =>
            match parseJ fuel .val rest3 with
            | some (.v v, rest4) =>
              let rest4 := skipWs rest4
              match rest4 with
              | d :: rest5 =>
                if d = ',' then
                  match parseJ fuel .objItems rest5 with
                  | some (.members members, rem) => some (.members ((⟨keyBody⟩, v) :: members), rem)
                  | _ => none
                else if d = Char.ofNat 125 then some (.members [(⟨keyBody⟩, v)], rest5)
                else none
              | [] => none
            | _ => none
          | _ => none
      else none
    | [] => none

/-- Model of `JSON.parse(line)` returning `none` where `JSON.parse` throws a
`SyntaxError`: parse one JSON value and require only whitespace after it. -/
def jsonParse (s : String) : Option Json :=
  match parseJ (4 * (s.data.length + 1)) .val s.data with
  | some (.v v, rest) => if (skipWs rest).isEmpty then some v else none
  | _ => none

/-- Map an `Option`-valued function over a list, failing as soon as one
element fails (model of `lines.map(JSON.parse)`, whose first `SyntaxError`
aborts the whole `map`). -/
def mapMO (f : α → Option β) : List α → Option (List β)
  | [] => some []
  | a :: l =>
    match f a with
    | none => none
    | some b =>
      match mapMO f l with
      | none => none
      | some bs => some (b :: bs)

/-- Model of `readJsonLines(fileName, limit)` from `dashboard/lib/state.mjs`:
split the file into lines, keep non-blank ones, take the last `limit`
(`slice(-limit)`), and `JSON.parse` each.  A missing file (`ENOENT`) yields
`[]`; any other error — in particular a `SyntaxError` from an unparseable
line — is rethrown (`Except.error`). -/
def readJsonLines (file : Option (List String)) (limit : Nat) : Except Unit (List Json) :=
  match file with
  | none => .ok []
  | some rawLines =>
    match mapMO jsonParse (sliceLast (rawLines.filter nonBlank) limit) with
    | some records => .ok records
    | none => .error ()

/-- Model of `rotateJsonlIfNeeded(filePath, maxLines)` from
`dashboard/lib/state.mjs`: if the file holds more than `maxLines` non-blank
lines, rewrite it with `trimmed.join("\n") + "\n"` where
`trimmed = lines.slice(-maxLines)`; re-splitting that content yields
`trimmed ++ [""]`.  A missing file is a no-op. -/
def rotateJsonlIfNeeded (file : Option (List String)) (maxLines : Nat) : Option (List String) :=
  match file with
  | none => none
  | some rawLines =>
    let lines := rawLines.filter nonBlank
    if lines.length > maxLines then some (sliceLast lines maxLines ++ [""])
    else some rawLines

/-- Number of non-blank lines held by a (possibly missing) file. -/
def countNonBlank (file : Option (List String)) : Nat :=
  ((file.getD []).filter nonBlank).length

/-- Outcome of the `fetch("http://localhost:4319/health")` probe inside
`checkOtelStatus` (server file).  `threw` covers a network failure and the
AbortController firing at the ~2s timeout (both reject the `fetch` promise
and land in the surrounding `catch`); `respOk b` is a response with
`res.ok = b`. -/
inductive ProbeOutcome where
  | threw
  | respOk (ok : Bool)
deriving DecidableEq, Repr

/-- A record of the claude telemetry log as used by `checkOtelStatus`:
only its (possibly absent) `ts` field is consulted. -/
structure OtelLogEvent where
  ts : Option Int := none
deriving DecidableEq, Repr

/-- Timestamp of the most recent event, `claudeEvents[claudeEvents.length - 1]?.ts`. -/
def latestLogTs (evs : List OtelLogEvent) : Option Int :=
  evs.getLast?.bind (·.ts)

/-- Model of `checkOtelStatus` from the dashboard server: true (telemetry
active) iff the health probe against the OTEL listener returned `res.ok`,
AND reading the claude telemetry log succeeded with a non-empty result
whose latest record's `ts` is strictly within the last 5 minutes.  A
thrown probe (failure or ~2s timeout), a failed log read, an empty log, a
missing `ts` (`undefined > n` is false), or a stale `ts` all yield false. -/
def checkOtelStatus (probe : ProbeOutcome) (claudeRead : Except Unit (List OtelLogEvent))
    (now : Int) : Bool :=
  match probe with
  | .threw => false
  | .respOk ok =>
    if !ok then false
    else
      match claudeRead with
      | .error _ => false
      | .ok evs =>
        if evs.length = 0 then false
        else
          match latestLogTs evs with
          | none => false
          | some t => decide (now - 5 * 60 * 1000 < t)

/-- Monitoring mode reported by the server. -/
inductive Mode where
  | active
  | passive
deriving DecidableEq, Repr

/-- Model of the `/api/mode` endpoint: `{ mode: otelUp ? "active" : "passive", otelUp }`. -/
def apiMode (probe : ProbeOutcome) (claudeRead : Except Unit (List OtelLogEvent))
    (now : Int) : Mode × Bool :=
  (if checkOtelStatus probe claudeRead now then .active else .passive,
   checkOtelStatus probe claudeRead now)

/-- Successful response body of the `/api/events` endpoint: one array per
log-file source plus the detected mode.  Event payloads are abstract (the
endpoint never inspects them). -/
structure EventsPayload (α : Type) where
  systemMetrics : List α
  processStats : List α
  codexEvents : List α
  codexLocalEvents : List α
  latencyEvents : List α
  claudeEvents : List α
  claudeLocalEvents : List α
  mode : Mode
deriving DecidableEq, Repr

/-- Model of the `/api/events` handler: the seven `readJsonLines` calls are
issued concurrently and joined with `Promise.all`, whose rejection
semantics make the whole request fail as soon as any single read fails;
otherwise the response carries every source's array and the mode derived
from `checkOtelStatus` (which itself never rejects). -/
def apiEvents (rSystem rProcess rCodex rCodexLocal rLatency rClaude rClaudeLocal :
    Except Unit (List α)) (otelUp : Bool) : Except Unit (EventsPayload α) := do
  let systemMetrics ← rSystem
  let processStats ← rProcess
  let codexEvents ← rCodex
  let codexLocalEvents ← rCodexLocal
  let latencyEvents ← rLatency
  let claudeEvents ← rClaude
  let claudeLocalEvents ← rClaudeLocal
  pure { systemMetrics, processStats, codexEvents, codexLocalEvents,
         latencyEvents, claudeEvents, claudeLocalEvents,
         mode := if otelUp then .active else .passive }

/-- The Watching State record `{enabled, updatedAt}` persisted in
`watching-state.json`. -/
structure WatchingState where
  enabled : Bool
  updatedAt : Int
deriving DecidableEq, Repr

/-- A process entry from `si.processes().list` as consumed by
`collector.mjs`. -/
structure ProcInfo where
  pid : Int
  name : Option String := none
  cpu : Option Rat := none
  mem : Option Rat := none
deriving DecidableEq, Repr

/-- A network interface sample from `si.networkStats()`. -/
structure NetIface where
  rxSec : Option Rat := none
  txSec : Option Rat := none
deriving DecidableEq, Repr

/-- The raw values gathered on one tick of `collector.mjs` from the
`systeminformation` calls (`si.currentLoad`, `si.mem`, `si.fsStats`,
`si.networkStats`, `si.processes`, `si.disksIO`). -/
structure RawSample where
  currentLoad : Rat
  currentLoadSystem : Rat
  currentLoadUser : Rat
  currentLoadIdle : Rat
  memTotal : Rat
  memAvailable : Rat
  swapused : Rat
  fsBusy : Option Rat := none
  rIO : Int
  wIO : Int
  networkStats : List NetIface
  procList : List ProcInfo
deriving DecidableEq, Repr

/-- Model of `summarizeNetwork`: total rx/tx rate over all interfaces,
missing values counted as 0. -/
def summarizeNetwork (stats : List NetIface) : Rat × Rat :=
  stats.foldl (fun acc iface => (acc.1 + iface.rxSec.getD 0, acc.2 + iface.txSec.getD 0)) (0, 0)

/-- Stable insertion step for a descending sort by a rational key: the new
element goes after every existing element with a key at least as large.
`sortDesc` built on it coincides with JavaScript's (stable)
`array.sort((a, b) => key(b) - key(a))`. -/
def insDesc (key : α → Rat) (a : α) : List α → List α
  | [] => [a]
  | b :: bs => if key b < key a then a :: b :: bs else b :: insDesc key a bs

/-- Stable descending sort by a rational key (model of
`[...xs].sort((a, b) => key(b) - key(a))`). -/
def sortDesc (key : α → Rat) (l : List α) : List α :=
  l.foldl (fun acc x => insDesc key x acc) []

/-- Model of `Number(q.toFixed(2))`: round to two decimal places.  (The
half-way behaviour of IEEE `toFixed` formatting is approximated by
round-half-up; no verified claim depends on it.) -/
def toFixed2 (q : Rat) : Rat := (jsRound (q * 100) : Rat) / 100

/-- Model of `parseFloat(q.toFixed(1))` scaled by 10, stored as the integer
`round(10 * q)` so that event payloads stay in integers. -/
def toFixed1x10 (q : Rat) : Int := jsRound (q * 10)

/-- One entry of `topProcesses` / `watchers` in a process event. -/
structure ProcOut where
  pid : Int
  name : Option String := none
  cpu : Option Rat := none
  mem : Option Rat := none
deriving DecidableEq, Repr

def procOutOf (p : ProcInfo) : ProcOut :=
  { pid := p.pid, name := p.name, cpu := p.cpu.map toFixed2, mem := p.mem.map toFixed2 }

/-- Model of `pickTopProcesses`: sort descending by `cpu ?? 0`, keep 4. -/
def pickTopProcesses (l : List ProcInfo) : List ProcOut :=
  ((sortDesc (fun p => p.cpu.getD 0) l).take 4).map procOutOf

/-- The process-name keywords identifying "watcher" processes. -/
def watcherKeywords : List String :=
  ["node", "vite", "docker", "codex", "claude", "cursor"]

/-- ASCII lower-casing of a string (model of `name.toLowerCase()` on the
process names this system matches). -/
def lowerStr (s : String) : String := ⟨s.data.map Char.toLower⟩

/-- Model of `filterWatchers`: processes whose lower-cased name contains a
watcher keyword, capped at 6. -/
def filterWatchers (l : List ProcInfo) : List ProcOut :=
  ((l.filter fun p =>
      match p.name with
      | none => false
      | some n => watcherKeywords.any fun kw => jsIncludes (lowerStr n) kw).take 6).map procOutOf

/-- The system-metrics event appended by `collector.mjs` on each tick. -/
structure SystemEventRec where
  ts : Int
  cpuLoad : Rat
  cpuSystem : Rat
  cpuUser : Rat
  cpuIdle : Rat
  memTotalMb : Rat
  memUsedMb : Rat
  swapUsedMb : Rat
  diskBusy : Option Rat := none
  diskReadCnt : Int
  diskWriteCnt : Int
  networkRxPerSec : Rat
  networkTxPerSec : Rat
  watcherCount : Nat
  topProcessName : Option String := none
deriving DecidableEq, Repr

/-- The process-stats event appended by `collector.mjs` on each tick. -/
structure ProcessEventRec where
  ts : Int
  topProcesses : List ProcOut
  watchers : List ProcOut
deriving DecidableEq, Repr

def systemEventOf (ts : Int) (raw : RawSample) : SystemEventRec :=
  let net := summarizeNetwork raw.networkStats
  let top := pickTopProcesses raw.procList
  let watchers := filterWatchers raw.procList
  { ts
    cpuLoad := raw.currentLoad
    cpuSystem := raw.currentLoadSystem
    cpuUser := raw.currentLoadUser
    cpuIdle := raw.currentLoadIdle
    memTotalMb := toFixed2 (raw.memTotal / 1024 / 1024)
    memUsedMb := toFixed2 ((raw.memTotal - raw.memAvailable) / 1024 / 1024)
    swapUsedMb := toFixed2 (raw.swapused / 1024 / 1024)
    diskBusy := raw.fsBusy
    diskReadCnt := raw.rIO
    diskWriteCnt := raw.wIO
    networkRxPerSec := net.1
    networkTxPerSec := net.2
    watcherCount := watchers.length
    topProcessName := (top.head?).bind (·.name) }

def processEventOf (ts : Int) (raw : RawSample) : ProcessEventRec :=
  { ts, topProcesses := pickTopProcesses raw.procList, watchers := filterWatchers raw.procList }

/-- A record appended by the system collector on one tick (to the system
log or the process log). -/
inductive CollectorAppend where
  | system (e : SystemEventRec)
  | procStats (e : ProcessEventRec)
deriving DecidableEq, Repr

/-- Model of `captureSample` from `dashboard/scripts/collector.mjs`: the
tick first reads the Watching State and exits before any sampling or
appending when `enabled` is false; a gathering failure is caught and
appends nothing; otherwise one system event and one process event are
appended. -/
def captureSample (state : WatchingState) (gathered : Except Unit RawSample)
    (ts : Int) : List CollectorAppend :=
  if !state.enabled then []
  else
    match gathered with
    | .error _ => []
    | .ok raw => [.system (systemEventOf ts raw), .procStats (processEventOf ts raw)]

/-- One entry of the per-endpoint results array built by `measureLatency`
in `dashboard/scripts/latency-monitor.mjs`. -/
structure LatencyResultRec where
  name : String
  latencyMs : Option Rat := none
  status : Option Int := none
  ok : Bool
  error : Option String := none
deriving DecidableEq, Repr

/-- The latency event appended by `latency-monitor.mjs` on each tick. -/
structure LatencyEventRec where
  ts : Int
  endpoints : List LatencyResultRec
  anthropicMs : Option Rat := none
  openaiMs : Option Rat := none
  anyTimeout : Bool
  anyError : Bool
deriving DecidableEq, Repr

def latencyEventOf (ts : Int) (results : List LatencyResultRec) : LatencyEventRec :=
  { ts
    endpoints := results
    anthropicMs := (results.find? (·.name = "anthropic")).bind (·.latencyMs)
    openaiMs := (results.find? (·.name = "openai")).bind (·.latencyMs)
    anyTimeout := results.any (·.error = some "timeout")
    anyError := results.any fun r => r.error.isSome && r.error ≠ some "timeout" }

/-- Model of `captureSample` from `dashboard/scripts/latency-monitor.mjs`:
like the system collector, it consults the Watching State first and
appends nothing when disabled; a gathering failure appends nothing;
otherwise one latency event is appended. -/
def latencyCaptureSample (state : WatchingState)
    (gathered : Except Unit (List LatencyResultRec)) (ts : Int) : List LatencyEventRec :=
  if !state.enabled then []
  else
    match gathered with
    | .error _ => []
    | .ok results => [latencyEventOf ts results]

/-- Severity tier of a detected pattern. -/
inductive Severity where
  | warning
  | error
deriving DecidableEq, Repr

/-- Payload of the `highMessageToolRatio` pattern; the `ratio.toFixed(1)`
string is modelled by the integer `round(10 * ratio)`. -/
structure RatioPattern where
  severity : Severity
  ratio10 : Int
deriving DecidableEq, Repr

/-- Payload of the `blockedTasks` / `manyBlockedTasks` patterns. -/
structure CountPattern where
  severity : Severity
  count : Nat
deriving DecidableEq, Repr

/-- Payload of the `longRunningSession` pattern. -/
structure LongSessionPattern where
  severity : Severity
  sessionId8 : String
  project : String
  durationMinutes : Int
deriving DecidableEq, Repr

/-- The `patterns` map attached to claude-local events, one optional field
per pattern key. -/
structure PatternsMap where
  highMessageToolRatio : Option RatioPattern := none
  blockedTasks : Option CountPattern := none
  longRunningSession : Option LongSessionPattern := none
deriving DecidableEq, Repr

/-- Whether the patterns map has no keys (`Object.keys(p).length === 0`). -/
def PatternsMap.isEmptyMap (p : PatternsMap) : Bool :=
  p.highMessageToolRatio.isNone && p.blockedTasks.isNone && p.longRunningSession.isNone

/-- One entry of `statsCache.dailyActivity`. -/
structure DailyActivityRec where
  date : Option String := none
  messageCount : Option Int := none
  toolCallCount : Option Int := none
  sessionCount : Option Int := none
deriving DecidableEq, Repr

/-- The parsed `~/.claude/stats-cache.json` contents. -/
structure StatsCacheRec where
  dailyActivity : List DailyActivityRec
  totalSessions : Option Int := none
  totalMessages : Option Int := none
deriving DecidableEq, Repr

/-- A task record kept by `readTasks` (it only pushes tasks with a truthy
non-`completed` status, and normalizes `blockedBy` to an array). -/
structure TaskRec where
  id : Option String := none
  subject : Option String := none
  status : String
  blockedBy : List String := []
deriving DecidableEq, Repr

/-- A per-session aggregate built by `readHistory` from
`~/.claude/history.jsonl` (history entries carry numeric millisecond
timestamps). -/
structure SessionRec where
  sessionId : String
  project : Option String := none
  firstTs : Int
  lastTs : Int
  messageCount : Nat
deriving DecidableEq, Repr

/-- JavaScript truthiness of a possibly-missing integer (`undefined` and
`0` are falsy). -/
def jsTruthyInt : Option Int → Bool
  | none => false
  | some n => n ≠ 0

/-- Model of `detectGlobalPatterns(statsCache, tasks)` from
`dashboard/scripts/claude-local-collector.mjs`.  The message/tool ratio of
the latest daily-activity entry maps to `error` above 10.0 and `warning`
above 7.0; tasks that are `in_progress` or have a non-empty `blockedBy`
count as blocked, and a count above 3 yields a `warning` `blockedTasks`
pattern — there is no error tier for the blocked-task count.  (The
`THRESHOLDS.blockedTaskAgeDays` constant in the source is never used by
this function.) -/
def detectGlobalPatterns (statsCache : Option StatsCacheRec) (tasks : List TaskRec) :
    PatternsMap :=
  let ratioPart : Option RatioPattern :=
    match statsCache with
    | none => none
    | some sc =>
      match sc.dailyActivity.getLast? with
      | none => none
      | some today =>
        if jsTruthyInt today.messageCount && jsTruthyInt today.toolCallCount then
          let ratio : Rat := ((today.messageCount.getD 0 : Int) : Rat) /
            ((max 1 (today.toolCallCount.getD 0) : Int) : Rat)
          if ratio > 10 then some ⟨.error, toFixed1x10 ratio⟩
          else if ratio > 7 then some ⟨.warning, toFixed1x10 ratio⟩
          else none
        else none
  let blocked := tasks.filter fun t => t.status = "in_progress" || !t.blockedBy.isEmpty
  { highMessageToolRatio := ratioPart
    blockedTasks :=
      if blocked.length > 3 then some ⟨.warning, blocked.length⟩ else none
    longRunningSession := none }

/-- Last non-empty path component of the session's project
(`session.project?.split("/").pop() || "unknown"`). -/
def lastPathComponent (p : Option String) : String :=
  match p with
  | none => "unknown"
  | some s =>
    match (splitChars '/' s.data).getLast? with
    | none => "unknown"
    | some comp => if comp.isEmpty then "unknown" else ⟨comp⟩

/-- Model of `detectSessionPatterns(session)`: a session running longer
than 480 minutes is tagged `longRunningSession` at `error`, longer than
240 minutes at `warning`. -/
def detectSessionPatterns (s : SessionRec) : PatternsMap :=
  let durationMinutes : Rat := ((s.lastTs - s.firstTs : Int) : Rat) / 60000
  if durationMinutes > 480 then
    { longRunningSession :=
        some ⟨.error, takeStr 8 s.sessionId, lastPathComponent s.project, jsRound durationMinutes⟩ }
  else if durationMinutes > 240 then
    { longRunningSession :=
        some ⟨.warning, takeStr 8 s.sessionId, lastPathComponent s.project, jsRound durationMinutes⟩ }
  else {}

/-- The trimmed task list embedded in a `task_status` event. -/
structure TaskSummary where
  id : Option String := none
  subject : Option String := none
  status : String
deriving DecidableEq, Repr

/-- An event appended to `claude-local-events.jsonl` by `collectAndEmit`. -/
inductive LocalEvent where
  | sessionSnapshot (ts : Int) (sessionId : String) (messageCount : Nat)
      (durationMinutes : Int) (project : Option String) (patterns : Option PatternsMap)
  | dailyStats (ts : Int) (date : Option String)
      (messageCount toolCallCount sessionCount : Option Int)
      (messageToolRatio10 : Option Int) (totalSessions totalMessages : Option Int)
      (patterns : Option PatternsMap)
  | taskStatus (ts : Int) (pendingCount blockedCount : Nat)
      (tasks : List TaskSummary) (patterns : Option CountPattern)
deriving DecidableEq, Repr

/-- Model of `collectAndEmit` from
`dashboard/scripts/claude-local-collector.mjs`: the list of events it
appends on one tick, in append order — up to 5 snapshots for sessions
active in the last two hours, one daily-stats event when the stats cache
has daily activity, and one task-status event when tasks are pending.
Note that this function never consults the Watching State. -/
def collectAndEmit (now : Int) (sessions : List SessionRec)
    (statsCache : Option StatsCacheRec) (tasks : List TaskRec) : List LocalEvent :=
  let globalPatterns := detectGlobalPatterns statsCache tasks
  let recentSessions := sessions.filter fun s => s.lastTs > now - 2 * 60 * 60 * 1000
  let sessionEvents := (recentSessions.take 5).map fun s =>
    let durationMinutes := jsRound (((s.lastTs - s.firstTs : Int) : Rat) / 60000)
    let sessionPatterns := detectSessionPatterns s
    let allPatterns : PatternsMap :=
      { globalPatterns with longRunningSession := sessionPatterns.longRunningSession }
    LocalEvent.sessionSnapshot now s.sessionId s.messageCount durationMinutes s.project
      (if allPatterns.isEmptyMap then none else some allPatterns)
  let dailyEvents : List LocalEvent :=
    match statsCache with
    | none => []
    | some sc =>
      match sc.dailyActivity.getLast? with
      | none => []
      | some today =>
        let ratio10 : Option Int :=
          match today.toolCallCount, today.messageCount with
          | some t, some m =>
            if t > 0 then some (toFixed1x10 ((m : Rat) / (t : Rat))) else none
          | _, _ => none
        [LocalEvent.dailyStats now today.date today.messageCount today.toolCallCount
          today.sessionCount ratio10 sc.totalSessions sc.totalMessages
          (if globalPatterns.isEmptyMap then none else some globalPatterns)]
  let blockedTasks := tasks.filter fun t => t.status ≠ "completed" && !t.blockedBy.isEmpty
  let pendingTasks := tasks.filter fun t => t.status = "pending" || t.status = "in_progress"
  let taskEvents : List LocalEvent :=
    if pendingTasks.isEmpty then []
    else
      [LocalEvent.taskStatus now pendingTasks.length blockedTasks.length
        ((pendingTasks.take 5).map fun t => ⟨t.id, t.subject.map (takeStr 50), t.status⟩)
        (if blockedTasks.length > 3 then some ⟨.warning, blockedTasks.length⟩ else none)]
  sessionEvents ++ dailyEvents ++ taskEvents

/-- One periodic tick of the claude-local collector, placed in a context
where the Watching State has some value: the source's `collectAndEmit`
never reads that state, so the tick's appends do not depend on it. -/
def claudeLocalTick (_state : WatchingState) (now : Int) (sessions : List SessionRec)
    (statsCache : Option StatsCacheRec) (tasks : List TaskRec) : List LocalEvent :=
  collectAndEmit now sessions statsCache tasks

mutual

/-- An OTLP attribute value object as received by the push-telemetry
collector (`otel-collector.mjs`): exactly one of the OTLP `AnyValue`
fields is populated (`vempty` models an object with none of them, which
`extractAttributeValue` maps to `null`).  Nested arrays and key-value
lists use the mutually defined list types so that extraction is
structurally recursive. -/
inductive ValueObj where
  | vstr (s : String)
  | vint (n : Int)
  | vdouble (q : Rat)
  | vbool (b : Bool)
  | varr (values : ValueObjList)
  | vkv (values : ValueKvList)
  | vempty
deriving DecidableEq

/-- The `arrayValue.values` list of an OTLP attribute value. -/
inductive ValueObjList where
  | nil
  | cons (hd : ValueObj) (tl : ValueObjList)
deriving DecidableEq

/-- The `kvlistValue.values` list of an OTLP attribute value. -/
inductive ValueKvList where
  | nil
  | cons (key : String) (v : ValueObj) (tl : ValueKvList)
deriving DecidableEq

end

mutual

/-- A JavaScript value produced by `extractAttributeValue`. -/
inductive AttrVal where
  | astr (s : String)
  | anum (q : Rat)
  | abool (b : Bool)
  | anull
  | aarr (xs : AttrValList)
  | aobj (kvs : AttrKvList)
deriving DecidableEq

/-- A JavaScript array of extracted attribute values. -/
inductive AttrValList where
  | nil
  | cons (hd : AttrVal) (tl : AttrValList)
deriving DecidableEq

/-- A JavaScript object of extracted attribute values. -/
inductive AttrKvList where
  | nil
  | cons (key : String) (v : AttrVal) (tl : AttrKvList)
deriving DecidableEq

end

mutual

/-- Model of `extractAttributeValue` on a present value object: strings,
ints (via `Number`), doubles and booleans map to themselves, arrays and
key-value lists are extracted recursively, anything else yields `null`. -/
def extractValueObj : ValueObj → AttrVal
  | .vstr s => .astr s
  | .vint n => .anum (n : Rat)
  | .vdouble q => .anum q
  | .vbool b => .abool b
  | .varr vs => .aarr (extractValueObjList vs)
  | .vkv kvs => .aobj (extractValueKvList kvs)
  | .vempty => .anull

/-- Extraction mapped over `arrayValue.values`. -/
def extractValueObjList : ValueObjList → AttrValList
  | .nil => .nil
  | .cons h t => .cons (extractValueObj h) (extractValueObjList t)

/-- Extraction mapped over `kvlistValue.values`. -/
def extractValueKvList : ValueKvList → AttrKvList
  | .nil => .nil
  | .cons k v t => .cons k (extractValueObj v) (extractValueKvList t)

end

/-- Model of `extractAttributeValue(valueObj)` from `otel-collector.mjs`:
a missing value object yields `null`. -/
def extractAttributeValue : Option ValueObj → AttrVal
  | none => .anull
  | some v => extractValueObj v

/-- One OTLP attribute `{key, value}`. -/
structure OtlpAttr where
  key : String
  value : Option ValueObj := none
deriving DecidableEq

/-- An OTLP log record as consumed by `parseLogRecord`. -/
structure LogRecordRec where
  attributes : List OtlpAttr := []
  severityText : Option String := none
  timeUnixNano : Option Nat := none
deriving DecidableEq

/-- The flat attribute object built by the extraction loop in
`parseLogRecord`. -/
def attrsOf (l : List OtlpAttr) : List (String × AttrVal) :=
  l.map fun a => (a.key, extractAttributeValue a.value)

/-- Property read `attrs[k]` on the attribute object: the last write wins,
`none` models `undefined`. -/
def lookupAttr (attrs : List (String × AttrVal)) (k : String) : Option AttrVal :=
  ((attrs.filter (·.1 = k)).getLast?).map (·.2)

/-- JavaScript truthiness of a possibly-missing attribute value. -/
def attrTruthy : Option AttrVal → Bool
  | none => false
  | some .anull => false
  | some (.astr s) => !s.isEmpty
  | some (.anum q) => q ≠ 0
  | some (.abool b) => b
  | some (.aarr _) => true
  | some (.aobj _) => true

/-- The normalized event appended to `claude-otel-events.jsonl` (the
record's flattened attributes are spread into the event object). -/
structure OtelOutEvent where
  ts : Int
  eventName : String
  attrs : List (String × AttrVal)
deriving DecidableEq

/-- Event construction at the end of `parseLogRecord`: a zero or missing
`timeUnixNano` is falsy and falls back to `Date.now()`; the
`claude_code.` prefix is stripped from the first occurrence in the name. -/
def buildOtelEvent (now : Int) (r : LogRecordRec) (s : String)
    (attrs : List (String × AttrVal)) : OtelOutEvent :=
  { ts :=
      match r.timeUnixNano with
      | some n => if n ≠ 0 then ((n / 1000000 : Nat) : Int) else now
      | none => now
    eventName := jsReplaceFirst s "claude_code."
    attrs := attrs }

/-- Model of `parseLogRecord(record)` from `otel-collector.mjs`.  The
event name is `attrs["event.name"] ?? record.severityText ?? "unknown"`;
when that value is not a string (for example an integer-valued
`event.name` attribute), `eventName.startsWith(...)` raises a
`TypeError`, modelled as `Except.error`.  A record that is neither a
`claude_code.*` event nor claude-related and has no truthy `duration_ms`,
`tool_name` or `model` attribute normalizes to `none` (skipped);
otherwise the normalized event is produced. -/
def parseLogRecord (now : Int) (r : LogRecordRec) : Except Unit (Option OtelOutEvent) :=
  let attrs := attrsOf r.attributes
  let enAttr := lookupAttr attrs "event.name"
  let fallback : AttrVal := .astr (r.severityText.getD "unknown")
  let eventNameVal : AttrVal :=
    match enAttr with
    | some v => if v = .anull then fallback else v
    | none => fallback
  match eventNameVal with
  | .astr s =>
    let includesClaude : Bool :=
      match enAttr with
      | some (.astr s2) => jsIncludes s2 "claude"
      | _ => false
    if !(strHasPre "claude_code." s) && !includesClaude then
      if !(attrTruthy (lookupAttr attrs "duration_ms")) &&
          !(attrTruthy (lookupAttr attrs "tool_name")) &&
          !(attrTruthy (lookupAttr attrs "model")) then
        Except.ok none
      else Except.ok (some (buildOtelEvent now r s attrs))
    else Except.ok (some (buildOtelEvent now r s attrs))
  | _ => Except.error ()

/-- A `scopeLogs` entry of an OTLP logs payload (`?? []` defaults are
folded into plain lists). -/
structure ScopeLogRec where
  logRecords : List LogRecordRec := []
deriving DecidableEq

/-- A `resourceLogs` entry of an OTLP logs payload. -/
structure ResourceLogRec where
  scopeLogs : List ScopeLogRec := []
deriving DecidableEq

/-- An OTLP logs payload `{resourceLogs: [...]}`. -/
structure LogsPayload where
  resourceLogs : List ResourceLogRec := []
deriving DecidableEq

/-- Map an `Except`-valued function over a list, failing as soon as one
element fails (a thrown exception aborts the whole loop). -/
def mapME (f : α → Except Unit β) : List α → Except Unit (List β)
  | [] => .ok []
  | a :: l =>
    match f a with
    | .error e => .error e
    | .ok b =>
      match mapME f l with
      | .error e => .error e
      | .ok bs => .ok (b :: bs)

/-- Model of `extractEventsFromLogs(payload)`: every log record of every
scope of every resource is normalized in order; records normalizing to
`null` are dropped, and a `TypeError` thrown by any record aborts the
whole extraction. -/
def extractEventsFromLogs (now : Int) (p : LogsPayload) :
    Except Unit (List OtelOutEvent) :=
  match mapME (parseLogRecord now)
      ((p.resourceLogs.flatMap (·.scopeLogs)).flatMap (·.logRecords)) with
  | .error e => .error e
  | .ok parsed => .ok (parsed.filterMap id)

/-- The request body of `POST /v1/logs`: either a raw protobuf buffer
(skipped by the collector) or an OTLP JSON payload. -/
inductive IngestBody where
  | protobufBuffer
  | jsonBody (p : LogsPayload)
deriving DecidableEq

/-- Response of the `/v1/logs` handler: HTTP 200 with the list of events
appended to the log, or HTTP 500 from the catch block. -/
inductive IngestResponse where
  | ok200 (appended : List OtelOutEvent)
  | err500
deriving DecidableEq

/-- Model of the `app.post("/v1/logs")` handler in `otel-collector.mjs`:
protobuf bodies are acknowledged with 200 and skipped; JSON payloads are
extracted and every resulting event appended, answering 200; an error
thrown during extraction is caught and answered with 500. -/
def postV1Logs (now : Int) (body : IngestBody) : IngestResponse :=
  match body with
  | .protobufBuffer => .ok200 []
  | .jsonBody p =>
    match extractEventsFromLogs now p with
    | .ok events => .ok200 events
    | .error _ => .err500

/-- A system-metrics record as consumed by the dashboard UI (all fields
optional: consumers degrade gracefully on missing fields). -/
structure SystemMetricRec where
  ts : Option Rat := none
  cpuLoad : Option Rat := none
  cpuUser : Option Rat := none
  cpuSystem : Option Rat := none
  memTotalMb : Option Rat := none
  memUsedMb : Option Rat := none
  swapUsedMb : Option Rat := none
  networkRxPerSec : Option Rat := none
  networkTxPerSec : Option Rat := none
deriving DecidableEq, Repr

/-- A latency event as consumed by the dashboard UI. -/
structure LatencyEvRec where
  ts : Option Rat := none
  anthropicMs : Option Rat := none
deriving DecidableEq, Repr

/-- A claude telemetry event as consumed by the dashboard UI. -/
structure ClaudeEvRec where
  ts : Option Rat := none
  event : Option String := none
  durationMs : Option Rat := none
deriving DecidableEq, Repr

/-- The head entry of `watcherLeaderboard` (aggregated upstream in
`App.tsx` from the process-stats events; the diagnostic treats it as an
input). -/
structure WatcherAgg where
  name : String
  avgCpu : Rat
  mem : Option Rat := none
deriving DecidableEq, Repr

/-- The inputs of the `diagnostic` useMemo in `dashboard/src/App.tsx`:
the fetched event arrays and the watcher-leaderboard head. -/
structure DiagInputs where
  systemMetrics : List SystemMetricRec := []
  latencyEvents : List LatencyEvRec := []
  claudeEvents : List ClaudeEvRec := []
  topProcess : Option WatcherAgg := none
deriving DecidableEq, Repr

/-- Status tier of a diagnostic source (and of the overall summary, which
never uses `unknown`). -/
inductive SourceStatus where
  | ok
  | warning
  | error
  | unknown
deriving DecidableEq, Repr

/-- One scored source of the diagnostic (display-only fields — name,
icon, value, detail, refresh interval, last update — are elided; the
claims concern `id`, `status` and `score`). -/
structure DiagSource where
  id : String
  status : SourceStatus
  score : Rat
deriving DecidableEq, Repr

/-- Model of `memPercent` in `App.tsx`:
`latest?.memTotalMb ? ((latest.memUsedMb ?? 0) / latest.memTotalMb) * 100 : 0`
(a missing or zero total is falsy). -/
def memPercentOf (i : DiagInputs) : Rat :=
  match i.systemMetrics.getLast? with
  | none => 0
  | some m =>
    match m.memTotalMb with
    | none => 0
    | some total => if total ≠ 0 then ((m.memUsedMb.getD 0) / total) * 100 else 0

/-- The `api_request` events with a numeric `duration_ms`, as filtered by
`claudeApiStats`. -/
def claudeApiRequests (i : DiagInputs) : List ClaudeEvRec :=
  i.claudeEvents.filter fun e => e.event = some "api_request" && e.durationMs.isSome

/-- `claudeApiStats?.latest`: the duration of the most recent filtered
request, or `none` when there are no such requests (`claudeApiStats`
is `null` then). -/
def claudeLatencyLatest (i : DiagInputs) : Option Rat :=
  ((claudeApiRequests i).getLast?).bind (·.durationMs)

/-- Whether the UI has any system-metrics data (`hasData`). -/
def hasSystemData (i : DiagInputs) : Bool := !i.systemMetrics.isEmpty

/-- Whether the UI has any claude telemetry data (`hasClaudeData`). -/
def hasClaudeData (i : DiagInputs) : Bool := !i.claudeEvents.isEmpty

/-- `latest?.cpuLoad ?? 0`. -/
def cpuLoadOf (i : DiagInputs) : Rat :=
  ((i.systemMetrics.getLast?).bind (·.cpuLoad)).getD 0

/-- `latest?.swapUsedMb ?? 0`. -/
def swapUsedOf (i : DiagInputs) : Rat :=
  ((i.systemMetrics.getLast?).bind (·.swapUsedMb)).getD 0

/-- `claudeApiStats?.latest ?? 0` (used in the claude-api score and
status). -/
def claudeLatencyOf (i : DiagInputs) : Rat := (claudeLatencyLatest i).getD 0

/-- The CPU source entry. -/
def cpuSrcOf (i : DiagInputs) : DiagSource :=
  { id := "cpu"
    status :=
      if !hasSystemData i then .unknown
      else if cpuLoadOf i > 80 then .error
      else if cpuLoadOf i > 60 then .warning else .ok
    score := if cpuLoadOf i > 80 then 90 else if cpuLoadOf i > 60 then 50 else 0 }

/-- The memory source entry. -/
def memSrcOf (i : DiagInputs) : DiagSource :=
  { id := "memory"
    status :=
      if !hasSystemData i then .unknown
      else if memPercentOf i > 90 then .error
      else if memPercentOf i > 75 then .warning else .ok
    score := if memPercentOf i > 90 then 85 else if memPercentOf i > 75 then 40 else 0 }

/-- The swap source entry. -/
def swapSrcOf (i : DiagInputs) : DiagSource :=
  { id := "swap"
    status :=
      if !hasSystemData i then .unknown
      else if swapUsedOf i > 4000 then .error
      else if swapUsedOf i > 1000 then .warning else .ok
    score := if swapUsedOf i > 4000 then 80 else if swapUsedOf i > 1000 then 35 else 0 }

/-- The claude-api (real latency) source entry. -/
def claudeSrcOf (i : DiagInputs) : DiagSource :=
  { id := "claude-api"
    status :=
      if !hasClaudeData i then .unknown
      else if claudeLatencyOf i > 10000 then .error
      else if claudeLatencyOf i > 5000 then .warning else .ok
    score :=
      if claudeLatencyOf i > 10000 then 95
      else if claudeLatencyOf i > 5000 then 70 else 0 }

/-- The top-CPU-consumer process source, present only when the watcher
leaderboard head exceeds the 20% CPU inclusion floor. -/
def procSrcsOf (i : DiagInputs) : List DiagSource :=
  match i.topProcess with
  | none => []
  | some tp =>
    if tp.avgCpu > 20 then
      [{ id := "process"
         status := if tp.avgCpu > 50 then .error else if tp.avgCpu > 30 then .warning else .ok
         score := if tp.avgCpu > 50 then 75 else if tp.avgCpu > 30 then 45 else 0 }]
    else []

/-- The network source entry (its score is always 0). -/
def netSrcOf (i : DiagInputs) : DiagSource :=
  { id := "network", status := if !hasSystemData i then .unknown else .ok, score := 0 }

/-- Model of the `sources` array built by the `diagnostic` useMemo in
`App.tsx`, in push order: cpu, memory, swap, claude-api, the optional
process source, network. -/
def diagSources (i : DiagInputs) : List DiagSource :=
  cpuSrcOf i :: memSrcOf i :: swapSrcOf i :: claudeSrcOf i
    :: (procSrcsOf i ++ [netSrcOf i])

/-- Model of
`topIssue = [...sources].sort((a, b) => b.score - a.score)[0]`: the head
of the stable descending sort by score.  The default is never reached:
the sources list is always non-empty. -/
def topIssueOf (i : DiagInputs) : DiagSource :=
  (sortDesc (·.score) (diagSources i)).headD ⟨"cpu", .unknown, 0⟩

/-- The four branches computing `summary`/`summaryStatus` in the
diagnostic (summary strings are elided; the branch identity is kept). -/
inductive SummaryKind where
  | awaitingData
  | probableCause
  | stressWarning
  | allNormal
deriving DecidableEq, Repr

/-- The output of the diagnostic relevant to the claims. -/
structure DiagOut where
  sources : List DiagSource
  topIssue : DiagSource
  summaryKind : SummaryKind
  summaryStatus : SourceStatus
deriving DecidableEq, Repr

/-- Model of the tail of the `diagnostic` useMemo: when both the
system-metrics and latency arrays are empty the summary is the "awaiting
data" `warning` (regardless of any other source's data); otherwise the
tier is `error` for a top score of at least 80, `warning` for at least
40, else `ok`. -/
def diagnostic (i : DiagInputs) : DiagOut :=
  let sources := diagSources i
  let top := topIssueOf i
  let hasData := !i.systemMetrics.isEmpty
  let hasLatencyData := !i.latencyEvents.isEmpty
  if !hasData && !hasLatencyData then
    { sources, topIssue := top, summaryKind := .awaitingData, summaryStatus := .warning }
  else if top.score ≥ 80 then
    { sources, topIssue := top, summaryKind := .probableCause, summaryStatus := .error }
  else if top.score ≥ 40 then
    { sources, topIssue := top, summaryKind := .stressWarning, summaryStatus := .warning }
  else
    { sources, topIssue := top, summaryKind := .allNormal, summaryStatus := .ok }

/-- The blocked-task count used by `detectGlobalPatterns`: tasks that are
`in_progress` or have a non-empty `blockedBy` list. -/
def blockedCount (tasks : List TaskRec) : Nat :=
  (tasks.filter fun t => t.status = "in_progress" || !t.blockedBy.isEmpty).length

/-- A demonstration payload for the ingest endpoint: one well-formed
claude event record followed by one unrelated record that normalizes to
`null`. -/
def ingestDemoPayload : LogsPayload :=
  ⟨[⟨[⟨[⟨[⟨"event.name", some (.vstr "claude_code.api_request")⟩], none, some 5000000⟩,
        ⟨[], some "INFO", none⟩]⟩]⟩]⟩

/-- The single event the demonstration payload normalizes to. -/
def ingestDemoEvent : OtelOutEvent :=
  ⟨5, "api_request", [("event.name", .astr "claude_code.api_request")]⟩

/-- A batch whose single record carries an integer-valued `event.name`
attribute, on which `eventName.startsWith` raises a `TypeError`. -/
def ingestBadPayload : LogsPayload :=
  ⟨[⟨[⟨[⟨[⟨"event.name", some (ValueObj.vint 5)⟩], none, none⟩]⟩]⟩]⟩

/-- Demonstration input for the C7 counterexample: no system-metrics and
no latency data, but one claude api_request event with a 20-second
duration (claude-api source score 95). -/
def claudeOnlyInputs : DiagInputs :=
  ⟨[], [], [⟨none, some "api_request", some 20000⟩], none⟩

/-! Helper lemmas. -/

theorem sliceLast_zero (l : List α) : sliceLast l 0 = l := by
  simp [sliceLast]

theorem sliceLast_suffix (l : List α) (n : Nat) : List.IsSuffix (sliceLast l n) l := by
  unfold sliceLast
  split
  · exact List.suffix_refl l
  · exact List.drop_suffix _ _

theorem sliceLast_mem {l : List α} {n : Nat} {x : α} (h : x ∈ sliceLast l n) : x ∈ l :=
  (sliceLast_suffix l n).subset h

theorem sliceLast_length_of_pos {l : List α} {n : Nat} (hn : n ≠ 0) :
    (sliceLast l n).length = l.length - (l.length - n) := by
  simp [sliceLast, hn]

theorem mapMO_spec (f : α → Option β) :
    ∀ (l : List α) (rs : List β), mapMO f l = some rs →
      rs.length = l.length ∧ ∀ k, mapMO f (l.drop k) = some (rs.drop k) := by
  intro l
  induction l with
  | nil =>
    intro rs h
    simp only [mapMO, Option.some.injEq] at h
    subst h
    exact ⟨rfl, fun k => by simp [mapMO]⟩
  | cons a l ih =>
    intro rs h
    unfold mapMO at h
    cases hfa : f a with
    | none => rw [hfa] at h; exact absurd h (by simp)
    | some b =>
      rw [hfa] at h
      cases hml : mapMO f l with
      | none => rw [hml] at h; exact absurd h (by simp)
      | some bs =>
        rw [hml] at h
        simp only [Option.some.injEq] at h
        obtain ⟨hlen, hdrop⟩ := ih bs hml
        subst h
        refine ⟨by simp [hlen], fun k => ?_⟩
        cases k with
        | zero => simp only [List.drop_zero]; unfold mapMO; rw [hfa, hml]
        | succ k => simpa using hdrop k

theorem mapMO_sliceLast {f : α → Option β} {l : List α} {rs : List β}
    (h : mapMO f l = some rs) (n : Nat) :
    mapMO f (sliceLast l n) = some (sliceLast rs n) := by
  obtain ⟨hlen, hdrop⟩ := mapMO_spec f l rs h
  by_cases hn : n = 0
  · subst hn; rw [sliceLast_zero, sliceLast_zero]; exact h
  · unfold sliceLast
    simp only [hn, if_false, hlen]
    exact hdrop (l.length - n)

theorem filter_nonBlank_sliceLast (l : List String) (m : Nat) :
    (sliceLast (l.filter nonBlank) m ++ [""]).filter nonBlank
      = sliceLast (l.filter nonBlank) m := by
  rw [List.filter_append]
  have h1 : ([""] : List String).filter nonBlank = [] := by decide
  rw [h1, List.append_nil]
  refine List.filter_eq_self.mpr fun a ha => ?_
  exact List.of_mem_filter (sliceLast_mem ha)

theorem insDesc_mem {key : α → Rat} {a x : α} :
    ∀ {l : List α}, x ∈ insDesc key a l ↔ x = a ∨ x ∈ l := by
  intro l
  induction l with
  | nil => simp [insDesc]
  | cons b bs ih =>
    unfold insDesc
    split
    · simp [List.mem_cons]
    · simp only [List.mem_cons, ih]
      tauto

theorem foldl_insDesc_mem (key : α → Rat) :
    ∀ (l acc : List α) (x : α),
      x ∈ l.foldl (fun acc y => insDesc key y acc) acc ↔ x ∈ acc ∨ x ∈ l := by
  intro l
  induction l with
  | nil => simp
  | cons a l ih =>
    intro acc x
    simp only [List.foldl_cons, ih, insDesc_mem, List.mem_cons]
    tauto

theorem sortDesc_mem {key : α → Rat} {l : List α} {x : α} :
    x ∈ sortDesc key l ↔ x ∈ l := by
  unfold sortDesc
  rw [foldl_insDesc_mem]
  simp

theorem insDesc_head_max {key : α → Rat} {d a : α} {l : List α}
    (h : ∀ x ∈ l, key x ≤ key (l.headD d)) :
    ∀ x ∈ insDesc key a l, key x ≤ key ((insDesc key a l).headD d) := by
  cases l with
  | nil =>
    intro x hx
    simp only [insDesc, List.mem_singleton] at hx
    subst hx
    simp [insDesc]
  | cons b bs =>
    intro x hx
    by_cases hba : key b < key a
    · simp only [insDesc, if_pos hba] at hx ⊢
      simp only [List.headD_cons]
      rcases List.mem_cons.mp hx with rfl | hx2
      · exact le_refl _
      · exact le_trans (h x hx2) (le_of_lt hba)
    · simp only [insDesc, if_neg hba] at hx ⊢
      push_neg at hba
      simp only [List.headD_cons] at h ⊢
      rcases List.mem_cons.mp hx with rfl | hx2
      · exact le_refl _
      · rcases insDesc_mem.mp hx2 with rfl | hx3
        · exact hba
        · exact h x (List.mem_cons_of_mem b hx3)

theorem foldl_insDesc_max (key : α → Rat) (d : α) :
    ∀ (l acc : List α), (∀ x ∈ acc, key x ≤ key (acc.headD d)) →
      ∀ x ∈ l.foldl (fun acc y => insDesc key y acc) acc,
        key x ≤ key ((l.foldl (fun acc y => insDesc key y acc) acc).headD d) := by
  intro l
  induction l with
  | nil => intro acc h; simpa using h
  | cons a l ih =>
    intro acc h
    simpa using ih (insDesc key a acc) (insDesc_head_max h)

theorem sortDesc_head_max {key : α → Rat} {d : α} {l : List α} :
    ∀ x ∈ sortDesc key l, key x ≤ key ((sortDesc key l).headD d) := by
  unfold sortDesc
  exact foldl_insDesc_max key d l [] (by simp)

theorem headD_mem_of_ne_nil {l : List α} (h : l ≠ []) (d : α) : l.headD d ∈ l := by
  cases l with
  | nil => exact absurd rfl h
  | cons a t => simp

theorem rotateJsonl_some (raw : List String) (m : Nat) :
    rotateJsonlIfNeeded (some raw) m
      = if (raw.filter nonBlank).length > m
        then some (sliceLast (raw.filter nonBlank) m ++ [""])
        else some raw := rfl

theorem countNonBlank_some (l : List String) :
    countNonBlank (some l) = (l.filter nonBlank).length := rfl

/-! Claim C2 — rotation keeps exactly the last `maxLines` lines.  The
claim as stated fails at `maxLines = 0`, where `lines.slice(-0)` is
`lines.slice(0)` (the whole array); for every positive cap it holds. -/

/-- Claim C2 (amended): for every cap `maxLines ≥ 1`, a file with more
than `maxLines` non-blank lines is rewritten to contain exactly the last
`maxLines` non-blank lines in their original relative order (a suffix of
the original non-blank lines) and no more; a file with at most `maxLines`
non-blank lines, or a missing file, is left unchanged. -/
theorem rotateJsonl_keeps_last_cap (raw : List String) (m : Nat) (hm : 1 ≤ m) :
    rotateJsonlIfNeeded none m = none
    ∧ ((raw.filter nonBlank).length ≤ m → rotateJsonlIfNeeded (some raw) m = some raw)
    ∧ ((raw.filter nonBlank).length > m →
        rotateJsonlIfNeeded (some raw) m
            = some (sliceLast (raw.filter nonBlank) m ++ [""])
        ∧ countNonBlank (rotateJsonlIfNeeded (some raw) m) = m
        ∧ List.IsSuffix (sliceLast (raw.filter nonBlank) m) (raw.filter nonBlank)) := by
  refine ⟨rfl, ?_, ?_⟩
  · intro hle
    rw [rotateJsonl_some, if_neg (by omega)]
  · intro hgt
    have hrw : rotateJsonlIfNeeded (some raw) m
        = some (sliceLast (raw.filter nonBlank) m ++ [""]) := by
      rw [rotateJsonl_some, if_pos hgt]
    refine ⟨hrw, ?_, sliceLast_suffix _ _⟩
    rw [hrw, countNonBlank_some, filter_nonBlank_sliceLast,
      sliceLast_length_of_pos (show m ≠ 0 by omega)]
    omega

/-- Claim C2 witness: a four-line file rotated at cap 2 keeps exactly its
last two non-blank lines. -/
theorem rotateJsonl_keeps_last_cap_witness :
    (1 ≤ 2)
    ∧ ((["a", "b", "c", ""].filter nonBlank).length > 2)
    ∧ rotateJsonlIfNeeded (some ["a", "b", "c", ""]) 2
        = some (sliceLast (["a", "b", "c", ""].filter nonBlank) 2 ++ [""])
    ∧ countNonBlank (rotateJsonlIfNeeded (some ["a", "b", "c", ""]) 2) = 2 :=
  ⟨by decide, by decide,
   ((rotateJsonl_keeps_last_cap ["a", "b", "c", ""] 2 (by decide)).2.2 (by decide)).1,
   ((rotateJsonl_keeps_last_cap ["a", "b", "c", ""] 2 (by decide)).2.2 (by decide)).2.1⟩

/-- Claim C2 counterexample: at cap `maxLines = 0` a file whose non-blank
line count (1) exceeds the cap is rewritten, but the rewritten file still
holds 1 non-blank line — not "exactly the last 0 lines and no more" —
because `lines.slice(-0)` keeps the whole array. -/
theorem rotateJsonl_zero_cap_counterexample :
    (["", "x", ""].filter nonBlank).length > 0
    ∧ rotateJsonlIfNeeded (some ["", "x", ""]) 0 = some ["x", ""]
    ∧ countNonBlank (rotateJsonlIfNeeded (some ["", "x", ""]) 0) ≠ 0 := by
  decide

/-! Claim C10 — rotation idempotence.  Contents are indeed unchanged by an
immediately repeated call for every cap, but "after one call the file
holds at most `maxLines` non-empty lines" fails at `maxLines = 0`. -/

/-- Claim C10 (amended): a repeated call to `rotateJsonlIfNeeded` with the
same cap returns the file contents unchanged (rotation is idempotent as a
function on file contents), and for every cap `maxLines ≥ 1` the rotated
file holds at most `maxLines` non-blank lines. -/
theorem rotateJsonl_idempotent (f : Option (List String)) (m : Nat) :
    rotateJsonlIfNeeded (rotateJsonlIfNeeded f m) m = rotateJsonlIfNeeded f m
    ∧ (1 ≤ m → countNonBlank (rotateJsonlIfNeeded f m) ≤ m) := by
  cases f with
  | none => exact ⟨rfl, fun _ => by simp [rotateJsonlIfNeeded, countNonBlank]⟩
  | some raw =>
    by_cases hgt : (raw.filter nonBlank).length > m
    · have hrw : rotateJsonlIfNeeded (some raw) m
          = some (sliceLast (raw.filter nonBlank) m ++ [""]) := by
        rw [rotateJsonl_some, if_pos hgt]
      constructor
      · rw [hrw]
        by_cases hm0 : m = 0
        · subst hm0
          rw [rotateJsonl_some, filter_nonBlank_sliceLast, sliceLast_zero,
            if_pos (by omega), sliceLast_zero]
        · rw [rotateJsonl_some, filter_nonBlank_sliceLast,
            if_neg (by rw [sliceLast_length_of_pos hm0]; omega)]
      · intro hm
        rw [hrw, countNonBlank_some, filter_nonBlank_sliceLast,
          sliceLast_length_of_pos (show m ≠ 0 by omega)]
        omega
    · have hrw : rotateJsonlIfNeeded (some raw) m = some raw := by
        rw [rotateJsonl_some, if_neg hgt]
      exact ⟨by rw [hrw, hrw], fun _ => by rw [hrw, countNonBlank_some]; omega⟩

/-- Claim C10 witness: rotating a three-line file at cap 1 and rotating
again is a no-op, and the once-rotated file holds at most 1 non-blank
line. -/
theorem rotateJsonl_idempotent_witness :
    rotateJsonlIfNeeded (rotateJsonlIfNeeded (some ["a", "b", ""]) 1) 1
        = rotateJsonlIfNeeded (some ["a", "b", ""]) 1
    ∧ (1 ≤ 1)
    ∧ countNonBlank (rotateJsonlIfNeeded (some ["a", "b", ""]) 1) ≤ 1 :=
  ⟨(rotateJsonl_idempotent (some ["a", "b", ""]) 1).1, by decide,
   (rotateJsonl_idempotent (some ["a", "b", ""]) 1).2 (by decide)⟩

/-- Claim C10 counterexample: at cap `maxLines = 0`, after one call the
file still holds 2 non-blank lines, so "after one call the file holds at
most `maxLines` non-empty lines" is false (`lines.slice(-0)` keeps the
whole array, so the rewrite drops nothing). -/
theorem rotateJsonl_zero_cap_not_capped :
    ¬ countNonBlank (rotateJsonlIfNeeded (some ["a", "b", ""]) 0) ≤ 0 := by
  decide

/-! Claim C1 — `readJsonLines`.  The missing-file and bounded-tail parts
hold, but unparseable lines are NOT silently dropped: `JSON.parse` throws
inside the `try`, and the `catch` rethrows every error whose `code` is
not `"ENOENT"`, so one corrupted line makes the whole read fail. -/

/-- Claim C1 (amended): for every limit ≥ 1, `readJsonLines` of a missing
file is `[]` (not an error); when every non-blank line of the file
parses, the result is the parses of the last `limit` non-blank lines — at
most `limit` records, the most recent ones, in original (oldest-to-newest)
order, a suffix of the whole file's records; but when any of the last
`limit` non-blank lines is unparseable, the read throws an error instead
of dropping the line. -/
theorem readJsonLines_amended (lines : List String) (limit : Nat) (hl : 1 ≤ limit) :
    readJsonLines none limit = .ok []
    ∧ (∀ rs, mapMO jsonParse (lines.filter nonBlank) = some rs →
        readJsonLines (some lines) limit = .ok (sliceLast rs limit)
        ∧ (sliceLast rs limit).length ≤ limit
        ∧ List.IsSuffix (sliceLast rs limit) rs)
    ∧ (mapMO jsonParse (sliceLast (lines.filter nonBlank) limit) = none →
        readJsonLines (some lines) limit = .error ()) := by
  have hsome : ∀ ls : List String, readJsonLines (some ls) limit
      = match mapMO jsonParse (sliceLast (ls.filter nonBlank) limit) with
        | some records => .ok records
        | none => .error () := fun _ => rfl
  refine ⟨rfl, ?_, ?_⟩
  · intro rs hall
    have hslice := mapMO_sliceLast hall limit
    refine ⟨?_, ?_, sliceLast_suffix _ _⟩
    · rw [hsome, hslice]
    · rw [sliceLast_length_of_pos (show limit ≠ 0 by omega)]
      omega
  · intro hfail
    rw [hsome, hfail]

/-- Claim C1 witness: reading the last 1 record of a two-record file
yields exactly the most recent record. -/
theorem readJsonLines_amended_witness :
    (1 ≤ 1)
    ∧ mapMO jsonParse (["1", "2", ""].filter nonBlank)
        = some [Json.jnum "1", Json.jnum "2"]
    ∧ readJsonLines (some ["1", "2", ""]) 1
        = .ok (sliceLast [Json.jnum "1", Json.jnum "2"] 1)
    ∧ (sliceLast [Json.jnum "1", Json.jnum "2"] 1).length ≤ 1 :=
  ⟨by decide, by rfl,
   ((readJsonLines_amended ["1", "2", ""] 1 (by decide)).2.1
     [Json.jnum "1", Json.jnum "2"] (by rfl)).1,
   ((readJsonLines_amended ["1", "2", ""] 1 (by decide)).2.1
     [Json.jnum "1", Json.jnum "2"] (by rfl)).2.1⟩

/-- Claim C1 counterexample: a file holding one corrupted line among two
valid ones does not yield the two valid records — the read throws,
because `JSON.parse`'s `SyntaxError` is rethrown by the `catch` (its
`code` is not `"ENOENT"`). -/
theorem readJsonLines_malformed_counterexample :
    jsonParse "1" = some (Json.jnum "1")
    ∧ jsonParse "2" = some (Json.jnum "2")
    ∧ jsonParse "not json" = none
    ∧ readJsonLines (some ["1", "not json", "2", ""]) 10 = Except.error ()
    ∧ readJsonLines (some ["1", "not json", "2", ""]) 10
        ≠ Except.ok [Json.jnum "1", Json.jnum "2"] :=
  ⟨rfl, rfl, rfl, rfl, fun h => Except.noConfusion ((rfl :
    readJsonLines (some ["1", "not json", "2", ""]) 10 = Except.error ()) ▸ h)⟩

/-! Claim C3 — the mode detector. -/

/-- Claim C3: the detector reports `active` if and only if the health
probe against the telemetry listener succeeded (`res.ok`, within its ~2s
abort timeout — a timeout rejects the fetch and is `ProbeOutcome.threw`)
AND the telemetry-log read succeeded with a non-empty list whose most
recent event carries a timestamp strictly within the last 5 minutes.
Failing either conjunct — a thrown or non-ok probe, a failed read, an
empty log, a missing timestamp, or a stale timestamp — yields `passive`,
and `/api/mode` reports `active` exactly when the check passes. -/
theorem checkOtelStatus_active_iff (p : ProbeOutcome)
    (r : Except Unit (List OtelLogEvent)) (now : Int) :
    (checkOtelStatus p r now = true ↔
      p = .respOk true ∧ ∃ evs, r = .ok evs ∧ evs ≠ []
        ∧ ∃ t, latestLogTs evs = some t ∧ now - 5 * 60 * 1000 < t)
    ∧ ((apiMode p r now).1 = .active ↔ checkOtelStatus p r now = true) := by
  constructor
  · constructor
    · intro hchk
      cases p with
      | threw => exact absurd hchk (by simp [checkOtelStatus])
      | respOk ok =>
        cases ok with
        | false => exact absurd hchk (by simp [checkOtelStatus])
        | true =>
          cases r with
          | error e => exact absurd hchk (by simp [checkOtelStatus])
          | ok evs =>
            have hred : checkOtelStatus (.respOk true) (.ok evs) now
                = (if evs.length = 0 then false
                   else
                     match latestLogTs evs with
                     | none => false
                     | some t => decide (now - 5 * 60 * 1000 < t)) := rfl
            rw [hred] at hchk
            by_cases hlen : evs.length = 0
            · rw [if_pos hlen] at hchk; exact Bool.noConfusion hchk
            · rw [if_neg hlen] at hchk
              cases ht : latestLogTs evs with
              | none => rw [ht] at hchk; exact Bool.noConfusion hchk
              | some t =>
                rw [ht] at hchk
                exact ⟨rfl, evs, rfl, fun hnil => hlen (by rw [hnil]; rfl),
                  t, ht, of_decide_eq_true hchk⟩
    · rintro ⟨hp, evs, hr, hne, t, ht, hrec⟩
      subst hp; subst hr
      have hred : checkOtelStatus (.respOk true) (.ok evs) now
          = (if evs.length = 0 then false
             else
               match latestLogTs evs with
               | none => false
               | some t => decide (now - 5 * 60 * 1000 < t)) := rfl
      rw [hred, if_neg (fun h => hne (List.length_eq_zero.mp h)), ht]
      exact decide_eq_true hrec
  · unfold apiMode
    by_cases h : checkOtelStatus p r now = true
    · simp [h]
    · simp only [Bool.not_eq_true] at h
      simp [h]

/-! Claim C5 — the aggregator's failure domains.  The seven reads are
issued concurrently, but they are joined with `Promise.all`, which
rejects the whole request as soon as any single read rejects: a failing
source does suppress the others' results. -/

/-- Claim C5 (amended): when every source's read succeeds, the events
query returns every source's array plus the mode; but when any one
source's read fails, `Promise.all` rejects and the whole query fails —
sources do not have independent failure domains (only a missing file is
tolerated, inside `readJsonLines` itself). -/
theorem apiEvents_amended {α : Type} (r1 r2 r3 r4 r5 r6 r7 : Except Unit (List α))
    (u : Bool) :
    (∀ l1 l2 l3 l4 l5 l6 l7, r1 = .ok l1 → r2 = .ok l2 → r3 = .ok l3 → r4 = .ok l4 →
      r5 = .ok l5 → r6 = .ok l6 → r7 = .ok l7 →
      apiEvents r1 r2 r3 r4 r5 r6 r7 u
        = .ok ⟨l1, l2, l3, l4, l5, l6, l7, if u then .active else .passive⟩)
    ∧ ((r1 = .error () ∨ r2 = .error () ∨ r3 = .error () ∨ r4 = .error ()
        ∨ r5 = .error () ∨ r6 = .error () ∨ r7 = .error ()) →
      apiEvents r1 r2 r3 r4 r5 r6 r7 u = .error ()) := by
  constructor
  · intro l1 l2 l3 l4 l5 l6 l7 h1 h2 h3 h4 h5 h6 h7
    subst h1; subst h2; subst h3; subst h4; subst h5; subst h6; subst h7
    rfl
  · intro h
    cases r1 <;> cases r2 <;> cases r3 <;> cases r4 <;> cases r5 <;> cases r6 <;>
      cases r7 <;> simp_all [apiEvents, Except.bind, Bind.bind, pure]

/-- Claim C5 witness: with every read succeeding, each source's array is
returned. -/
theorem apiEvents_amended_witness :
    @apiEvents Nat (.ok [1]) (.ok [2]) (.ok []) (.ok []) (.ok []) (.ok []) (.ok [])
        false
      = .ok ⟨[1], [2], [], [], [], [], [], .passive⟩ :=
  (@apiEvents_amended Nat (.ok [1]) (.ok [2]) (.ok []) (.ok []) (.ok []) (.ok [])
    (.ok []) false).1 [1] [2] [] [] [] [] [] rfl rfl rfl rfl rfl rfl rfl

/-- Claim C5 counterexample: the first source's read succeeds with a
non-empty array, the second source's read fails — and the whole query
fails, so the succeeding source's array is not returned.  An error from
one source's read does fail the entire events query. -/
theorem apiEvents_one_failure_counterexample :
    @apiEvents Nat (Except.ok [5]) (Except.error ()) (.ok []) (.ok []) (.ok [])
      (.ok []) (.ok []) false = Except.error () := rfl

/-! Claim C4 — disabled-state no-op.  The system-metrics collector and the
latency monitor do read the Watching State and skip the tick when
disabled, but the claude-local collector's `collectAndEmit` never
consults the Watching State at all, so its ticks append records even when
`enabled = false`. -/

/-- Claim C4 (amended): the collectors that consult the Watching State —
the system-metrics/process collector (`collector.mjs`) and the latency
monitor (`latency-monitor.mjs`) — append no records on a tick when
`enabled = false`, whatever their sampling produced; the local-file
collectors never read the Watching State, so their ticks append records
regardless of it (disabling them is enforced only externally, by the
server stopping their processes). -/
theorem collectors_disabled_no_append (state : WatchingState)
    (g1 : Except Unit RawSample) (g2 : Except Unit (List LatencyResultRec))
    (ts : Int) (h : state.enabled = false) :
    captureSample state g1 ts = [] ∧ latencyCaptureSample state g2 ts = [] := by
  unfold captureSample latencyCaptureSample
  rw [h]
  exact ⟨rfl, rfl⟩

/-- Claim C4 witness: with a disabled Watching State, one tick of the
system collector and one tick of the latency monitor append nothing. -/
theorem collectors_disabled_no_append_witness :
    (⟨false, 0⟩ : WatchingState).enabled = false
    ∧ captureSample ⟨false, 0⟩ (.error ()) 0 = []
    ∧ latencyCaptureSample ⟨false, 0⟩ (.ok []) 0 = [] :=
  ⟨rfl, (collectors_disabled_no_append ⟨false, 0⟩ (.error ()) (.ok []) 0 rfl).1,
   (collectors_disabled_no_append ⟨false, 0⟩ (.error ()) (.ok []) 0 rfl).2⟩

/-- Claim C4 counterexample: with the Watching State disabled, a tick of
the claude-local collector still appends a record (here: a daily-stats
event from a populated stats cache) — `collectAndEmit` never reads the
Watching State, so "every collector no-ops when disabled" is false. -/
theorem claudeLocalTick_disabled_appends :
    (⟨false, 0⟩ : WatchingState).enabled = false
    ∧ claudeLocalTick ⟨false, 0⟩ 0 []
        (some ⟨[⟨none, some 10, some 0, none⟩], none, none⟩) []
      = [LocalEvent.dailyStats 0 none (some 10) (some 0) none none none none none]
    ∧ ([LocalEvent.dailyStats 0 none (some 10) (some 0) none none none none none]
        : List LocalEvent) ≠ [] :=
  ⟨rfl, rfl, fun h => List.noConfusion h⟩

/-! Claim C8 — blocked-task pattern severity.  The spec's thresholds
(warning above 2, error above 5, error checked first) do not match the
code: `detectGlobalPatterns` emits only a `warning`-severity
`blockedTasks` pattern, when the blocked-task count exceeds 3; there is
no error tier at all. -/

/-- Claim C8 (amended): the collector's global pattern detection tags a
`blockedTasks` pattern with severity `warning` exactly when the
blocked-task count exceeds 3, and emits no blocked-task pattern
otherwise; no blocked-task count ever produces an `error` severity. -/
theorem blockedTasks_pattern_amended (sc : Option StatsCacheRec) (tasks : List TaskRec) :
    (blockedCount tasks > 3 →
      (detectGlobalPatterns sc tasks).blockedTasks
        = some ⟨.warning, blockedCount tasks⟩)
    ∧ (blockedCount tasks ≤ 3 → (detectGlobalPatterns sc tasks).blockedTasks = none)
    ∧ (∀ c, (detectGlobalPatterns sc tasks).blockedTasks ≠ some ⟨.error, c⟩) := by
  have hred : (detectGlobalPatterns sc tasks).blockedTasks
      = if blockedCount tasks > 3 then some ⟨.warning, blockedCount tasks⟩
        else none := rfl
  refine ⟨fun h => by rw [hred, if_pos h], fun h => by rw [hred, if_neg (by omega)], ?_⟩
  intro c h
  rw [hred] at h
  by_cases h3 : blockedCount tasks > 3
  · rw [if_pos h3] at h
    injection h with h2
    exact Severity.noConfusion (congrArg CountPattern.severity h2)
  · rw [if_neg h3] at h
    exact Option.noConfusion h

/-- Claim C8 witness: four in-progress tasks exceed the cutoff of 3 and
yield a `warning` blocked-task pattern with count 4. -/
theorem blockedTasks_pattern_amended_witness :
    blockedCount (List.replicate 4 ⟨none, none, "in_progress", []⟩) > 3
    ∧ (detectGlobalPatterns none
        (List.replicate 4 ⟨none, none, "in_progress", []⟩)).blockedTasks
      = some ⟨.warning, blockedCount (List.replicate 4 ⟨none, none, "in_progress", []⟩)⟩ :=
  ⟨by decide,
   (blockedTasks_pattern_amended none
     (List.replicate 4 ⟨none, none, "in_progress", []⟩)).1 (by decide)⟩

/-- Claim C8 counterexample: six blocked tasks — a count exceeding the
spec's error cutoff of 5 — are tagged `warning`, not `error`: the code
compares the count only against the literal 3 and knows no error tier. -/
theorem blockedTasks_six_not_error :
    blockedCount (List.replicate 6 ⟨none, none, "in_progress", []⟩) = 6
    ∧ (detectGlobalPatterns none
        (List.replicate 6 ⟨none, none, "in_progress", []⟩)).blockedTasks
      = some ⟨Severity.warning, 6⟩
    ∧ (detectGlobalPatterns none
        (List.replicate 6 ⟨none, none, "in_progress", []⟩)).blockedTasks
      ≠ some ⟨Severity.error, 6⟩ := by
  refine ⟨by decide, by decide, fun h => ?_⟩
  rw [show (detectGlobalPatterns none
      (List.replicate 6 ⟨none, none, "in_progress", []⟩)).blockedTasks
    = some ⟨Severity.warning, 6⟩ from by decide] at h
  injection h with h2
  exact Severity.noConfusion (congrArg CountPattern.severity h2)

/-! Claim C9 — push-telemetry ingest.  Records that normalize to `null`
are skipped and the batch is still acknowledged with 200; but a record
whose normalization throws (for example an integer-valued `event.name`
attribute, on which `eventName.startsWith` raises a `TypeError`) makes
the handler answer 500, so not every batch payload is acknowledged as
success. -/

/-- Claim C9 (amended): the `/v1/logs` handler acknowledges with success
every protobuf body and every JSON payload whose normalization does not
throw — even when some inner records normalize to `null` and are dropped
(partial success) — but a payload whose normalization throws is answered
with a 500 error, not a success acknowledgement. -/
theorem postV1Logs_amended (now : Int) (p : LogsPayload) :
    postV1Logs now .protobufBuffer = .ok200 []
    ∧ (∀ evs, extractEventsFromLogs now p = .ok evs →
        postV1Logs now (.jsonBody p) = .ok200 evs)
    ∧ (extractEventsFromLogs now p = .error () →
        postV1Logs now (.jsonBody p) = .err500) := by
  have hred : postV1Logs now (.jsonBody p)
      = match extractEventsFromLogs now p with
        | .ok events => .ok200 events
        | .error _ => .err500 := rfl
  exact ⟨rfl, fun evs h => by rw [hred, h], fun h => by rw [hred, h]⟩

/-- Claim C9 witness: the two-record demonstration batch is acknowledged
with 200 even though its second record fails to normalize (it is dropped,
partial success). -/
theorem postV1Logs_amended_witness :
    extractEventsFromLogs 0 ingestDemoPayload = .ok [ingestDemoEvent]
    ∧ postV1Logs 0 (.jsonBody ingestDemoPayload) = .ok200 [ingestDemoEvent] :=
  ⟨rfl, (postV1Logs_amended 0 ingestDemoPayload).2.1 [ingestDemoEvent] rfl⟩

/-- Claim C9 counterexample: the bad batch makes `parseLogRecord` throw,
and the handler answers 500 — not a success acknowledgement. -/
theorem postV1Logs_typeerror_counterexample :
    postV1Logs 0 (.jsonBody ingestBadPayload) = .err500
    ∧ postV1Logs 0 (.jsonBody ingestBadPayload) ≠ .ok200 [] :=
  ⟨rfl, fun h => IngestResponse.noConfusion
    ((rfl : postV1Logs 0 (IngestBody.jsonBody ingestBadPayload)
        = IngestResponse.err500) ▸ h)⟩

/-! Lemmas about the diagnostic sources. -/

theorem cpuSrc_unknown_zero (i : DiagInputs) :
    (cpuSrcOf i).status = .unknown → (cpuSrcOf i).score = 0 := by
  intro h
  cases hsys : i.systemMetrics with
  | nil =>
    have hcl : cpuLoadOf i = 0 := by unfold cpuLoadOf; rw [hsys]; rfl
    unfold cpuSrcOf
    simp only [hcl]
    norm_num
  | cons a t =>
    exfalso
    have hd : hasSystemData i = true := by unfold hasSystemData; rw [hsys]; rfl
    unfold cpuSrcOf at h
    simp only [hd, Bool.not_true, Bool.false_eq_true, if_false] at h
    split at h
    · exact SourceStatus.noConfusion h
    · split at h
      · exact SourceStatus.noConfusion h
      · exact SourceStatus.noConfusion h

theorem memSrc_unknown_zero (i : DiagInputs) :
    (memSrcOf i).status = .unknown → (memSrcOf i).score = 0 := by
  intro h
  cases hsys : i.systemMetrics with
  | nil =>
    have hm : memPercentOf i = 0 := by unfold memPercentOf; rw [hsys]; rfl
    unfold memSrcOf
    simp only [hm]
    norm_num
  | cons a t =>
    exfalso
    have hd : hasSystemData i = true := by unfold hasSystemData; rw [hsys]; rfl
    unfold memSrcOf at h
    simp only [hd, Bool.not_true, Bool.false_eq_true, if_false] at h
    split at h
    · exact SourceStatus.noConfusion h
    · split at h
      · exact SourceStatus.noConfusion h
      · exact SourceStatus.noConfusion h

theorem swapSrc_unknown_zero (i : DiagInputs) :
    (swapSrcOf i).status = .unknown → (swapSrcOf i).score = 0 := by
  intro h
  cases hsys : i.systemMetrics with
  | nil =>
    have hs : swapUsedOf i = 0 := by unfold swapUsedOf; rw [hsys]; rfl
    unfold swapSrcOf
    simp only [hs]
    norm_num
  | cons a t =>
    exfalso
    have hd : hasSystemData i = true := by unfold hasSystemData; rw [hsys]; rfl
    unfold swapSrcOf at h
    simp only [hd, Bool.not_true, Bool.false_eq_true, if_false] at h
    split at h
    · exact SourceStatus.noConfusion h
    · split at h
      · exact SourceStatus.noConfusion h
      · exact SourceStatus.noConfusion h

theorem claudeSrc_unknown_zero (i : DiagInputs) :
    (claudeSrcOf i).status = .unknown → (claudeSrcOf i).score = 0 := by
  intro h
  cases hcl : i.claudeEvents with
  | nil =>
    have hlat : claudeLatencyOf i = 0 := by
      unfold claudeLatencyOf claudeLatencyLatest claudeApiRequests
      rw [hcl]
      rfl
    unfold claudeSrcOf
    simp only [hlat]
    norm_num
  | cons a t =>
    exfalso
    have hd : hasClaudeData i = true := by unfold hasClaudeData; rw [hcl]; rfl
    unfold claudeSrcOf at h
    simp only [hd, Bool.not_true, Bool.false_eq_true, if_false] at h
    split at h
    · exact SourceStatus.noConfusion h
    · split at h
      · exact SourceStatus.noConfusion h
      · exact SourceStatus.noConfusion h

theorem procSrcs_never_unknown (i : DiagInputs) :
    ∀ s ∈ procSrcsOf i, s.status ≠ .unknown := by
  intro s hs
  unfold procSrcsOf at hs
  cases htp : i.topProcess with
  | none => rw [htp] at hs; exact absurd hs (List.not_mem_nil s)
  | some tp =>
    rw [htp] at hs
    dsimp only at hs
    by_cases h20 : tp.avgCpu > 20
    · rw [if_pos h20] at hs
      rcases List.mem_singleton.mp hs with rfl
      intro h
      dsimp only at h
      split at h
      · exact SourceStatus.noConfusion h
      · split at h
        · exact SourceStatus.noConfusion h
        · exact SourceStatus.noConfusion h
    · rw [if_neg h20] at hs
      exact absurd hs (List.not_mem_nil s)

theorem netSrc_unknown_zero (i : DiagInputs) : (netSrcOf i).score = 0 := rfl

theorem diagSources_unknown_zero (i : DiagInputs) :
    ∀ s ∈ diagSources i, s.status = .unknown → s.score = 0 := by
  intro s hs hunk
  unfold diagSources at hs
  rcases List.mem_cons.mp hs with rfl | hs
  · exact cpuSrc_unknown_zero i hunk
  rcases List.mem_cons.mp hs with rfl | hs
  · exact memSrc_unknown_zero i hunk
  rcases List.mem_cons.mp hs with rfl | hs
  · exact swapSrc_unknown_zero i hunk
  rcases List.mem_cons.mp hs with rfl | hs
  · exact claudeSrc_unknown_zero i hunk
  rcases List.mem_append.mp hs with hs | hs
  · exact absurd hunk (procSrcs_never_unknown i s hs)
  · rcases List.mem_singleton.mp hs with rfl
    exact netSrc_unknown_zero i

theorem topIssueOf_mem (i : DiagInputs) : topIssueOf i ∈ diagSources i := by
  unfold topIssueOf
  have hmem : cpuSrcOf i ∈ sortDesc (·.score) (diagSources i) :=
    sortDesc_mem.mpr (by unfold diagSources; exact List.mem_cons_self _ _)
  have hne : sortDesc (·.score) (diagSources i) ≠ [] := by
    intro h
    rw [h] at hmem
    exact absurd hmem (List.not_mem_nil _)
  exact sortDesc_mem.mp (headD_mem_of_ne_nil hne _)

theorem topIssueOf_max (i : DiagInputs) :
    ∀ s ∈ diagSources i, s.score ≤ (topIssueOf i).score := by
  intro s hs
  exact sortDesc_head_max s (sortDesc_mem.mpr hs)

theorem diag_topIssue_eq (i : DiagInputs) : (diagnostic i).topIssue = topIssueOf i := by
  unfold diagnostic
  dsimp only
  split
  · rfl
  · split
    · rfl
    · split
      · rfl
      · rfl

/-! Claim C6 — unknown sources never dominate. -/

/-- Claim C6: a source with no samples is `unknown` with score 0 — with
no system-metrics data the cpu, memory, swap and network sources are
`unknown` at score 0, and with no claude events the claude-api source is
`unknown` at score 0; every `unknown` source in the list has score 0; and
whenever any source has a positive score, the selected `topIssue` is not
an `unknown` (no-data) source. -/
theorem diag_unknown_nondomination (i : DiagInputs) :
    (i.systemMetrics = [] →
      (cpuSrcOf i).status = .unknown ∧ (cpuSrcOf i).score = 0
      ∧ (memSrcOf i).status = .unknown ∧ (memSrcOf i).score = 0
      ∧ (swapSrcOf i).status = .unknown ∧ (swapSrcOf i).score = 0
      ∧ (netSrcOf i).status = .unknown ∧ (netSrcOf i).score = 0)
    ∧ (i.claudeEvents = [] →
      (claudeSrcOf i).status = .unknown ∧ (claudeSrcOf i).score = 0)
    ∧ (∀ s ∈ diagSources i, s.status = .unknown → s.score = 0)
    ∧ (∀ s ∈ diagSources i, 0 < s.score → (diagnostic i).topIssue.status ≠ .unknown) := by
  refine ⟨?_, ?_, diagSources_unknown_zero i, ?_⟩
  · intro hsys
    have hcl : cpuLoadOf i = 0 := by unfold cpuLoadOf; rw [hsys]; rfl
    have hmp : memPercentOf i = 0 := by unfold memPercentOf; rw [hsys]; rfl
    have hsw : swapUsedOf i = 0 := by unfold swapUsedOf; rw [hsys]; rfl
    have hd : hasSystemData i = false := by unfold hasSystemData; rw [hsys]; rfl
    unfold cpuSrcOf memSrcOf swapSrcOf netSrcOf
    simp only [hcl, hmp, hsw, hd, Bool.not_false, if_true]
    norm_num
  · intro hcl
    have hlat : claudeLatencyOf i = 0 := by
      unfold claudeLatencyOf claudeLatencyLatest claudeApiRequests
      rw [hcl]
      rfl
    have hd : hasClaudeData i = false := by unfold hasClaudeData; rw [hcl]; rfl
    unfold claudeSrcOf
    simp only [hlat, hd, Bool.not_false, if_true]
    norm_num
  · intro s hs hpos
    rw [diag_topIssue_eq]
    intro hunk
    have hmax := topIssueOf_max i s hs
    have hzero := diagSources_unknown_zero i (topIssueOf i) (topIssueOf_mem i) hunk
    rw [hzero] at hmax
    exact absurd (lt_of_lt_of_le hpos hmax) (lt_irrefl 0)

/-- Claim C6 witness: with one system-metrics record at 90% CPU and no
other data, the cpu source scores 90 and the topIssue is not an unknown
source; with no data at all, every always-present source except the
process one is unknown with score 0. -/
theorem diag_unknown_nondomination_witness :
    ((⟨[], [], [], none⟩ : DiagInputs).systemMetrics = []
      ∧ (cpuSrcOf ⟨[], [], [], none⟩).status = .unknown
      ∧ (cpuSrcOf ⟨[], [], [], none⟩).score = 0)
    ∧ (cpuSrcOf ⟨[⟨none, some 90, none, none, none, none, none, none, none⟩], [], [], none⟩
        ∈ diagSources ⟨[⟨none, some 90, none, none, none, none, none, none, none⟩], [], [], none⟩
      ∧ 0 < (cpuSrcOf ⟨[⟨none, some 90, none, none, none, none, none, none, none⟩], [], [], none⟩).score
      ∧ (diagnostic ⟨[⟨none, some 90, none, none, none, none, none, none, none⟩], [], [], none⟩).topIssue.status
          ≠ .unknown) :=
  ⟨⟨rfl, ((diag_unknown_nondomination ⟨[], [], [], none⟩).1 rfl).1,
     ((diag_unknown_nondomination ⟨[], [], [], none⟩).1 rfl).2.1⟩,
   ⟨by decide, by decide,
    (diag_unknown_nondomination
        ⟨[⟨none, some 90, none, none, none, none, none, none, none⟩], [], [], none⟩).2.2.2
      (cpuSrcOf ⟨[⟨none, some 90, none, none, none, none, none, none, none⟩], [], [], none⟩)
      (by decide) (by decide)⟩⟩

/-! Claim C7 — the summary tier.  The score-based tiers are as claimed,
but the distinct "awaiting data" warning is NOT produced exactly when
there is no data anywhere: its condition checks only the system-metrics
and latency arrays, so claude telemetry data neither prevents it nor is
scored — an 95-score claude source is overridden by "awaiting data". -/

theorem diagnostic_branches (i : DiagInputs) :
    (i.systemMetrics = [] ∧ i.latencyEvents = [] →
      diagnostic i = ⟨diagSources i, topIssueOf i, .awaitingData, .warning⟩)
    ∧ (¬(i.systemMetrics = [] ∧ i.latencyEvents = []) →
      diagnostic i =
        if (topIssueOf i).score ≥ 80 then
          ⟨diagSources i, topIssueOf i, .probableCause, .error⟩
        else if (topIssueOf i).score ≥ 40 then
          ⟨diagSources i, topIssueOf i, .stressWarning, .warning⟩
        else ⟨diagSources i, topIssueOf i, .allNormal, .ok⟩) := by
  constructor
  · rintro ⟨hs, hl⟩
    unfold diagnostic
    rw [hs, hl]
    rfl
  · intro hne
    by_cases hs : i.systemMetrics = []
    · cases hl : i.latencyEvents with
      | nil => exact absurd ⟨hs, hl⟩ hne
      | cons a t =>
        unfold diagnostic
        rw [hs, hl]
        rfl
    · cases hsys : i.systemMetrics with
      | nil => exact absurd hsys hs
      | cons a t =>
        unfold diagnostic
        rw [hsys]
        rfl

/-- Claim C7 (amended): the "awaiting data" warning summary is produced
exactly when both the system-metrics and the latency logs are empty —
regardless of claude telemetry data, which the no-data condition ignores;
in every other case the summary tier is `error` when the topIssue score
is at least 80, `warning` when it is at least 40 and below 80, and `ok`
when it is below 40. -/
theorem diag_summary_amended (i : DiagInputs) :
    ((diagnostic i).summaryKind = .awaitingData ↔
      i.systemMetrics = [] ∧ i.latencyEvents = [])
    ∧ (i.systemMetrics = [] ∧ i.latencyEvents = [] →
        (diagnostic i).summaryStatus = .warning)
    ∧ (¬(i.systemMetrics = [] ∧ i.latencyEvents = []) →
        ((diagnostic i).summaryStatus = .error ↔ 80 ≤ (topIssueOf i).score)
        ∧ ((diagnostic i).summaryStatus = .warning ↔
            40 ≤ (topIssueOf i).score ∧ (topIssueOf i).score < 80)
        ∧ ((diagnostic i).summaryStatus = .ok ↔ (topIssueOf i).score < 40)) := by
  by_cases hempty : i.systemMetrics = [] ∧ i.latencyEvents = []
  · have heq := (diagnostic_branches i).1 hempty
    refine ⟨?_, fun _ => by rw [heq], fun hne => absurd hempty hne⟩
    rw [heq]
    exact ⟨fun _ => hempty, fun _ => rfl⟩
  · have heq := (diagnostic_branches i).2 hempty
    by_cases h80 : 80 ≤ (topIssueOf i).score
    · rw [heq, if_pos h80]
      exact ⟨⟨fun h => SummaryKind.noConfusion h, fun h => absurd h hempty⟩,
        fun h => absurd h hempty,
        fun _ => ⟨⟨fun _ => h80, fun _ => rfl⟩,
          ⟨fun h => SourceStatus.noConfusion h, fun ⟨_, hlt⟩ => absurd h80 (not_le.mpr hlt)⟩,
          ⟨fun h => SourceStatus.noConfusion h,
            fun hlt => absurd h80 (not_le.mpr (lt_of_lt_of_le hlt (by norm_num)))⟩⟩⟩
    · by_cases h40 : 40 ≤ (topIssueOf i).score
      · rw [heq, if_neg h80, if_pos h40]
        exact ⟨⟨fun h => SummaryKind.noConfusion h, fun h => absurd h hempty⟩,
          fun h => absurd h hempty,
          fun _ => ⟨⟨fun h => SourceStatus.noConfusion h, fun h => absurd h h80⟩,
            ⟨fun _ => ⟨h40, not_le.mp h80⟩, fun _ => rfl⟩,
            ⟨fun h => SourceStatus.noConfusion h,
              fun hlt => absurd h40 (not_le.mpr hlt)⟩⟩⟩
      · rw [heq, if_neg h80, if_neg h40]
        exact ⟨⟨fun h => SummaryKind.noConfusion h, fun h => absurd h hempty⟩,
          fun h => absurd h hempty,
          fun _ => ⟨⟨fun h => SourceStatus.noConfusion h, fun h => absurd h h80⟩,
            ⟨fun h => SourceStatus.noConfusion h, fun ⟨hge, _⟩ => absurd hge h40⟩,
            ⟨fun _ => not_le.mp h40, fun _ => rfl⟩⟩⟩

/-- Claim C7 witness: with a 90%-CPU metric present, the summary is the
score-based `error` tier (topIssue score 90 ≥ 80), not the awaiting-data
branch. -/
theorem diag_summary_amended_witness :
    ¬((⟨[⟨none, some 90, none, none, none, none, none, none, none⟩], [], [], none⟩
        : DiagInputs).systemMetrics = []
      ∧ (⟨[⟨none, some 90, none, none, none, none, none, none, none⟩], [], [], none⟩
        : DiagInputs).latencyEvents = [])
    ∧ (diagnostic ⟨[⟨none, some 90, none, none, none, none, none, none, none⟩],
        [], [], none⟩).summaryStatus = .error :=
  ⟨by decide,
   ((diag_summary_amended ⟨[⟨none, some 90, none, none, none, none, none, none, none⟩],
       [], [], none⟩).2.2 (by decide)).1.mpr (by decide)⟩

/-- Claim C7 counterexample: there IS data from a source (a claude
api_request scoring 95 ≥ 80, which per the claim should make the summary
`error`), yet the summary is the "awaiting data" `warning`: the no-data
condition consults only the system-metrics and latency arrays, so it is
not produced "exactly when there is no data anywhere". -/
theorem diag_summary_claude_only_counterexample :
    claudeOnlyInputs.claudeEvents ≠ []
    ∧ (claudeSrcOf claudeOnlyInputs).score = 95
    ∧ 80 ≤ (topIssueOf claudeOnlyInputs).score
    ∧ (diagnostic claudeOnlyInputs).summaryKind = .awaitingData
    ∧ (diagnostic claudeOnlyInputs).summaryStatus = .warning
    ∧ (diagnostic claudeOnlyInputs).summaryStatus ≠ .error := by
  refine ⟨by decide, by decide, by decide, by decide, by decide, by decide⟩
